import Mathlib

/-!
Shallow embedding of the CoreML execution-provider model-compilation layer
(`ModelBuilder` from `model_builder.cc` and the `Model` handle from
`core/providers/coreml/model/model.h`), together with theorems checking the
specification's claims against it.

The graph side (`GraphViewer`, `NodeArg`, `Node`) is the host engine's
read-only graph contract; the per-operator translators (`IOpBuilder`) are an
external capability and are modelled as a parameter of the pipeline.
-/

namespace CoremlEP

/-- ONNX element-type tag for float tensors (TensorProto_DataType_FLOAT = 1). -/
def TensorProto_DataType_FLOAT : Int := 1

/-- One dimension of a declared tensor shape: either a concrete value
(`has_dim_value`) or a symbolic/dynamic dimension (`dim_param` / unknown). -/
inductive Dim where
  | value (v : Int)
  | param
deriving DecidableEq, Repr

/-- Source `TensorShapeProto`: the ordered list of declared dimensions. -/
structure TensorShapeProto where
  dim : List Dim
deriving DecidableEq, Repr

/-- Source `TypeProto` for a tensor: the element type when `has_elem_type` holds. -/
structure TypeProto where
  elem_type : Option Int
deriving DecidableEq, Repr

/-- A named tensor argument of the graph.  `shape` is `none` when the graph
supplies no `TensorShapeProto`; `typeAsProto` is `none` when `TypeAsProto()`
returns null. -/
structure NodeArg where
  name : String
  shape : Option TensorShapeProto
  typeAsProto : Option TypeProto
deriving DecidableEq, Repr

/-- The element type of a `NodeArg`, when present (`TypeAsProto` non-null and
`has_elem_type`). -/
def elemTypeOf (na : NodeArg) : Option Int :=
  match na.typeAsProto with
  | none => none
  | some t => t.elem_type

/-- One node of the graph: its name and operator type. -/
structure Node where
  name : String
  opType : String
deriving DecidableEq, Repr

/-- The host graph contract consumed by the builder: declared inputs and
outputs, the names of the graph's initializer tensors, and the nodes already
resolved in topological order. -/
structure GraphViewer where
  inputs : List NodeArg
  outputs : List NodeArg
  initializerNames : List String
  nodes : List Node
deriving DecidableEq, Repr

/-- CoreML `ArrayFeatureType.ArrayDataType` (only FLOAT32 is emitted). -/
inductive ArrayDataType where
  | FLOAT32
deriving DecidableEq, Repr

/-- CoreML `ArrayFeatureType`: the multiarray shape and element datatype.
A freshly added feature has an empty shape and no datatype set. -/
structure ArrayFeatureType where
  shape : List Int
  datatype : Option ArrayDataType
deriving DecidableEq, Repr

/-- CoreML `FeatureDescription` with a multiarray feature type. -/
structure FeatureDescription where
  name : String
  multiarraytype : ArrayFeatureType
deriving DecidableEq, Repr

/-- CoreML `ModelDescription`: the input and output feature lists. -/
structure ModelDescription where
  input : List FeatureDescription
  output : List FeatureDescription
deriving DecidableEq, Repr

/-- CoreML `NeuralNetworkMultiArrayShapeMapping`. -/
inductive ShapeMapping where
  | RANK5_ARRAY_MAPPING
  | EXACT_ARRAY_MAPPING
deriving DecidableEq, Repr

/-- A native layer emitted by a translator (opaque to this layer). -/
structure NeuralNetworkLayer where
  name : String
deriving DecidableEq, Repr

/-- CoreML `NeuralNetwork` message: global shape-mapping mode and the ordered
layer list. -/
structure NeuralNetwork where
  arrayinputshapemapping : ShapeMapping
  layers : List NeuralNetworkLayer
deriving DecidableEq, Repr

/-- CoreML `Specification::Model`: version tag, description and network. -/
structure SpecModel where
  specificationversion : Int
  description : ModelDescription
  neuralnetwork : NeuralNetwork
deriving DecidableEq, Repr

/-- Source `OnnxTensorInfo` from `model.h`: element type plus static shape. -/
structure OnnxTensorInfo where
  data_type : Int
  shape : List Int
deriving DecidableEq, Repr

/-- Lookup in the name-to-descriptor table (`std::unordered_map::find`). -/
def lookupInfo : List (String × OnnxTensorInfo) → String → Option OnnxTensorInfo
  | [], _ => none
  | (k, v) :: rest, key => if k = key then some v else lookupInfo rest key

/-- Source `std::unordered_map::emplace`: inserts only when the key is absent. -/
def emplaceInfo (l : List (String × OnnxTensorInfo)) (k : String) (v : OnnxTensorInfo) :
    List (String × OnnxTensorInfo) :=
  if (lookupInfo l k).isSome then l else (k, v) :: l

/-- The mutable state of `ModelBuilder`: the in-progress CoreML model, the
scalar-output name set, the name-to-descriptor table and the
initializer-skip set recorded during preprocessing. -/
structure ModelBuilder where
  coreml_model : SpecModel
  scalar_outputs : List String
  input_output_info : List (String × OnnxTensorInfo)
  skipped_initializers : List String
deriving DecidableEq, Repr

/-- Source `ModelBuilder::AddScalarOutput`: insert into the scalar-output set. -/
def addScalarOutput (st : ModelBuilder) (output_name : String) : ModelBuilder :=
  { st with scalar_outputs :=
      if output_name ∈ st.scalar_outputs then st.scalar_outputs
      else output_name :: st.scalar_outputs }

/-- Source `ModelBuilder::AddLayer`: append a layer to the neural network. -/
def addLayer (st : ModelBuilder) (layer : NeuralNetworkLayer) : ModelBuilder :=
  { st with coreml_model.neuralnetwork.layers :=
      st.coreml_model.neuralnetwork.layers ++ [layer] }

/-- Append several layers in order. -/
def addLayers (st : ModelBuilder) : List NeuralNetworkLayer → ModelBuilder
  | [] => st
  | l :: rest => addLayers (addLayer st l) rest

/-- Source `mutable_output()->Add()` followed by `set_name`: append a fresh feature
description (empty shape, no datatype) to the description's OUTPUT list.
`RegisterModelInputs` in the source calls this even for graph inputs. -/
def pushOutputFeature (st : ModelBuilder) (name : String) : ModelBuilder :=
  { st with coreml_model.description.output :=
      st.coreml_model.description.output ++
        [{ name := name, multiarraytype := { shape := [], datatype := none } }] }

/-- Modify the last element of a feature list (the feature just added by
`Add()`, which the C++ code holds by reference and mutates in place). -/
def setLastFeature (f : FeatureDescription → FeatureDescription) :
    List FeatureDescription → List FeatureDescription
  | [] => []
  | [x] => [f x]
  | x :: y :: rest => x :: setLastFeature f (y :: rest)

/-- Apply an in-place mutation to the most recently added output feature. -/
def mapLastOutput (st : ModelBuilder) (f : FeatureDescription → FeatureDescription) :
    ModelBuilder :=
  { st with coreml_model.description.output :=
      setLastFeature f st.coreml_model.description.output }

/-- Source `*multi_array->mutable_shape() = {shape.cbegin(), shape.cend()}` on the
feature under construction. -/
def setLastOutputShape (st : ModelBuilder) (shape : List Int) : ModelBuilder :=
  mapLastOutput st (fun fd => { fd with multiarraytype.shape := shape })

/-- Source `multi_array->mutable_shape()->Add(v)` on the feature under construction. -/
def appendLastOutputShape (st : ModelBuilder) (v : Int) : ModelBuilder :=
  mapLastOutput st (fun fd =>
    { fd with multiarraytype.shape := fd.multiarraytype.shape ++ [v] })

/-- Source `multi_array->set_datatype(dt)` on the feature under construction. -/
def setLastOutputDatatype (st : ModelBuilder) (dt : ArrayDataType) : ModelBuilder :=
  mapLastOutput st (fun fd => { fd with multiarraytype.datatype := some dt })

/-- Record a descriptor in the name-to-descriptor table. -/
def emplaceTensorInfo (st : ModelBuilder) (k : String) (v : OnnxTensorInfo) : ModelBuilder :=
  { st with input_output_info := emplaceInfo st.input_output_info k v }

/-- The per-dimension loop of `RegisterModelInputs`: collect concrete dim
values into a local vector, failing on the first dynamic dimension. -/
def inputDimsToShape (input_name : String) : List Dim → Except String (List Int)
  | [] => Except.ok []
  | Dim.value v :: rest => (inputDimsToShape input_name rest).map (fun s => v :: s)
  | Dim.param :: _ =>
      Except.error ("Dynamic shape is not supported yet, for input, " ++ input_name)

/-- The body of the `RegisterModelInputs` loop for a single graph input
(`model_builder.cc` lines 131-186).  Note that the source appends the
feature to the description's OUTPUT list (`mutable_output()->Add()`). -/
def registerModelInput (inits : List String) (st : ModelBuilder) (na : NodeArg) :
    ModelBuilder × Option String :=
  if na.name ∈ inits then (st, none)
  else
    let st1 := pushOutputFeature st na.name
    match na.shape with
    | none => (st1, some ("shape_proto cannot be null for input: " ++ na.name))
    | some sp =>
      match (if sp.dim.isEmpty then Except.ok [1] else inputDimsToShape na.name sp.dim :
          Except String (List Int)) with
      | Except.error e => (st1, some e)
      | Except.ok shape =>
        let st2 := setLastOutputShape st1 shape
        match elemTypeOf na with
        | none => (st2, some ("The input of graph doesn't have elem_type: " ++ na.name))
        | some dt =>
          if dt = TensorProto_DataType_FLOAT then
            (emplaceTensorInfo (setLastOutputDatatype st2 ArrayDataType.FLOAT32)
              na.name { data_type := dt, shape := shape }, none)
          else
            (st2, some ("The input of graph doesn't have valid type, name: " ++ na.name ++
              " type: " ++ toString dt))

/-- The `RegisterModelInputs` loop over the graph's declared inputs,
short-circuiting on the first error. -/
def registerModelInputsGo (inits : List String) (st : ModelBuilder) :
    List NodeArg → ModelBuilder × Option String
  | [] => (st, none)
  | na :: rest =>
    match registerModelInput inits st na with
    | (st', none) => registerModelInputsGo inits st' rest
    | (st', some e) => (st', some e)

/-- Source `ModelBuilder::RegisterModelInputs`.  `GetInitializerTensors` (declared in
the header, outside this fragment) is the graph's initializer tensors. -/
def registerModelInputs (g : GraphViewer) (st : ModelBuilder) :
    ModelBuilder × Option String :=
  registerModelInputsGo g.initializerNames st g.inputs

/-- The per-dimension loop of `RegisterModelOutputs`, which appends each
concrete value directly onto the feature's shape and fails on the first
dynamic dimension. -/
def addOutputDims (output_name : String) (st : ModelBuilder) :
    List Dim → ModelBuilder × Option String
  | [] => (st, none)
  | Dim.value v :: rest => addOutputDims output_name (appendLastOutputShape st v) rest
  | Dim.param :: _ =>
      (st, some ("Dynamic shape is not supported yet, for output, " ++ output_name))

/-- The body of the `RegisterModelOutputs` loop for a single graph output
(`model_builder.cc` lines 208-251).  A rank-0 output is recorded in the
scalar-output set and materialized with shape `[1]`; no entry is made in the
name-to-descriptor table. -/
def registerModelOutput (st : ModelBuilder) (na : NodeArg) :
    ModelBuilder × Option String :=
  let st1 := pushOutputFeature st na.name
  match na.shape with
  | none => (st1, some ("shape_proto cannot be null for output: " ++ na.name))
  | some sp =>
    match (if sp.dim.isEmpty then
        (appendLastOutputShape (addScalarOutput st1 na.name) 1, none)
      else addOutputDims na.name st1 sp.dim : ModelBuilder × Option String) with
    | (st2, some e) => (st2, some e)
    | (st2, none) =>
      match elemTypeOf na with
      | none => (st2, some ("The output of graph doesn't have elem_type: " ++ na.name))
      | some dt =>
        if dt = TensorProto_DataType_FLOAT then
          (setLastOutputDatatype st2 ArrayDataType.FLOAT32, none)
        else
          (st2, some ("The output of graph doesn't have valid type, name: " ++ na.name ++
            " type: " ++ toString dt))

/-- The `RegisterModelOutputs` loop over the graph's declared outputs. -/
def registerModelOutputsGo (st : ModelBuilder) :
    List NodeArg → ModelBuilder × Option String
  | [] => (st, none)
  | na :: rest =>
    match registerModelOutput st na with
    | (st', none) => registerModelOutputsGo st' rest
    | (st', some e) => (st', some e)

/-- Source `ModelBuilder::RegisterModelOutputs`. -/
def registerModelOutputs (g : GraphViewer) (st : ModelBuilder) :
    ModelBuilder × Option String :=
  registerModelOutputsGo st g.outputs

/-- The per-dimension loop of `RegisterModelInputOutput`: collect concrete
dim values into a local vector, failing on the first dynamic dimension. -/
def inputOutputDimsToShape (io_type name : String) : List Dim → Except String (List Int)
  | [] => Except.ok []
  | Dim.value v :: rest =>
      (inputOutputDimsToShape io_type name rest).map (fun s => v :: s)
  | Dim.param :: _ =>
      Except.error ("Dynamic shape is not supported yet, for " ++ io_type ++ ": " ++ name)

/-- Source `ModelBuilder::RegisterModelInputOutput` (`model_builder.cc` lines
62-127): the shared helper that validates one tensor, fills the feature
description passed in by reference and records the descriptor in the
name-to-descriptor table for inputs AND outputs.  `Prepare`'s pipeline never
calls it; `RegisterModelInputs`/`RegisterModelOutputs` carry their own inline
copies of this logic. -/
def registerModelInputOutput (inits : List String) (st : ModelBuilder)
    (input_output : FeatureDescription) (na : NodeArg) (is_inp : Bool) :
    ModelBuilder × FeatureDescription × Option String :=
  let io_type := if is_inp then "input" else "output"
  if is_inp = true ∧ na.name ∈ inits then (st, input_output, none)
  else
    let fd1 := { input_output with name := na.name }
    match na.shape with
    | none =>
        (st, fd1, some ("shape_proto cannot be null for " ++ io_type ++ ": " ++ na.name))
    | some sp =>
      let scalar := sp.dim.isEmpty
      let stA := if scalar ∧ is_inp = false then addScalarOutput st na.name else st
      match (if scalar then Except.ok [1] else inputOutputDimsToShape io_type na.name sp.dim :
          Except String (List Int)) with
      | Except.error e => (stA, fd1, some e)
      | Except.ok shape =>
        let fd2 := { fd1 with multiarraytype.shape := shape }
        match elemTypeOf na with
        | none =>
            (stA, fd2, some ("The  " ++ io_type ++ " of graph doesn't have elem_type: " ++
              na.name))
        | some dt =>
          if dt = TensorProto_DataType_FLOAT then
            (emplaceTensorInfo stA na.name { data_type := dt, shape := shape },
             { fd2 with multiarraytype.datatype := some ArrayDataType.FLOAT32 }, none)
          else
            (stA, fd2, some ("The  " ++ io_type ++ " of graph doesn't have valid type, name: " ++
              na.name ++ " type: " ++ toString dt))

/-- Modelled from the spec: the per-operator translator capability
(`IOpBuilder`, declared outside this fragment).  A translator (a) declares
which graph initializers it consumes so the generic initializer pass skips
them, and (b) emits one or more native layers that the builder appends to the
in-progress model via `AddLayer`. -/
structure OpBuilder where
  initializersToSkip : Node → List String
  addToModelBuilder : ModelBuilder → Node → Except String (List NeuralNetworkLayer)

/-- The registry consulted by `GetOpBuilders()`: operator-type name to
translator, or `none` when no translator is registered. -/
def OpBuilders : Type := String → Option OpBuilder

/-- Source `ModelBuilder::GetOpBuilder`: look the node's op type up in the registry. -/
def getOpBuilder (bs : OpBuilders) (node : Node) : Option OpBuilder :=
  bs node.opType

/-- Source `ModelBuilder::PreprocessInitializers`: for every node in topological
order that has a translator, record the initializers it will consume. -/
def preprocessInitializersGo (bs : OpBuilders) (st : ModelBuilder) :
    List Node → ModelBuilder
  | [] => st
  | node :: rest =>
    match getOpBuilder bs node with
    | some b =>
        preprocessInitializersGo bs
          { st with skipped_initializers :=
              st.skipped_initializers ++ b.initializersToSkip node } rest
    | none => preprocessInitializersGo bs st rest

/-- Source `ModelBuilder::RegisterInitializers`: a reserved no-op that never fails. -/
def registerInitializers (st : ModelBuilder) : ModelBuilder × Option String :=
  (st, none)

/-- Source `ModelBuilder::AddOperations`: dispatch every node in topological order to
its translator; a node with no registered translator aborts the compile with
an error naming the node and its op type. -/
def addOperationsGo (bs : OpBuilders) (st : ModelBuilder) :
    List Node → ModelBuilder × Option String
  | [] => (st, none)
  | node :: rest =>
    match getOpBuilder bs node with
    | some b =>
      match b.addToModelBuilder st node with
      | Except.ok layers => addOperationsGo bs (addLayers st layers) rest
      | Except.error e => (st, some e)
    | none =>
      (st, some ("Node [" ++ node.name ++ "], type [" ++ node.opType ++
        "] is not supported"))

/-- The builder state right after the initialization block of
`ModelBuilder::Prepare`: CoreML specification version 4 and
`EXACT_ARRAY_MAPPING`, everything else empty. -/
def initState : ModelBuilder :=
  { coreml_model :=
      { specificationversion := 4
        description := { input := [], output := [] }
        neuralnetwork :=
          { arrayinputshapemapping := ShapeMapping.EXACT_ARRAY_MAPPING
            layers := [] } }
    scalar_outputs := []
    input_output_info := []
    skipped_initializers := [] }

/-- Source `ModelBuilder::Prepare`: the fixed pipeline, each step short-circuiting
the whole compile on its first error. -/
def prepare (bs : OpBuilders) (g : GraphViewer) : ModelBuilder × Option String :=
  let st1 := preprocessInitializersGo bs initState g.nodes
  match registerInitializers st1 with
  | (st2, some e) => (st2, some e)
  | (st2, none) =>
    match registerModelInputs g st2 with
    | (st3, some e) => (st3, some e)
    | (st3, none) =>
      match addOperationsGo bs st3 g.nodes with
      | (st4, some e) => (st4, some e)
      | (st4, none) => registerModelOutputsGo st4 g.outputs

/-- The `Model` handle from `model.h`: the artifact path, the scalar-output
set, the input/output name lists and the name-to-descriptor table.  The
constructor `Model(path)` leaves every list empty. -/
structure Model where
  path : String
  scalar_outputs : List String
  inputs : List String
  outputs : List String
  input_output_info : List (String × OnnxTensorInfo)
deriving DecidableEq, Repr

/-- Source `Model::Model(const std::string& path)`. -/
def Model.atPath (path : String) : Model :=
  { path := path, scalar_outputs := [], inputs := [], outputs := [],
    input_output_info := [] }

/-- Source `Model::SetScalarOutputs`. -/
def Model.setScalarOutputs (m : Model) (s : List String) : Model :=
  { m with scalar_outputs := s }

/-- Source `Model::IsScalarOutput`: membership in the scalar-output set. -/
def Model.isScalarOutput (m : Model) (output_name : String) : Bool :=
  m.scalar_outputs.contains output_name

/-- Source `Model::GetInputs`. -/
def Model.getInputs (m : Model) : List String := m.inputs

/-- Source `Model::GetOutputs`. -/
def Model.getOutputs (m : Model) : List String := m.outputs

/-- Source `Model::GetInputOutputInfo`: per-name descriptor lookup. -/
def Model.getInputOutputInfo (m : Model) (name : String) : Option OnnxTensorInfo :=
  lookupInfo m.input_output_info name

/-- Source `ModelBuilder::Compile`: run `Prepare`, serialize the completed model to
`path` (`SaveCoreMLModel`), then construct a `Model` bound to the path and
transfer the scalar-output set into it.  The second component is the artifact
actually written to the filesystem: `none` when the pipeline fails before the
serialization step succeeds.  `serOk` stands for the opaque
`SerializeToOstream` call of the target's protobuf library. -/
def compile (bs : OpBuilders) (serOk : SpecModel → Bool) (g : GraphViewer)
    (path : String) : Except String Model × Option (String × SpecModel) :=
  match prepare bs g with
  | (_, some e) => (Except.error e, none)
  | (st, none) =>
    if serOk st.coreml_model then
      (Except.ok ((Model.atPath path).setScalarOutputs st.scalar_outputs),
       some (path, st.coreml_model))
    else (Except.error "Save the CoreML model failed", none)

/-- A concrete translator used by the concrete checks below: consumes no
initializers and emits one layer named after the node. -/
def addOpBuilder : OpBuilder :=
  { initializersToSkip := fun _ => []
    addToModelBuilder := fun _ node => Except.ok [{ name := node.name }] }

/-- A concrete registry supporting only the op type "Add". -/
def bs0 : OpBuilders := fun op => if op = "Add" then some addOpBuilder else none

/-- A serializer stand-in that always succeeds. -/
def ser0 : SpecModel → Bool := fun _ => true

/-- Shorthand for a float `TypeProto`. -/
def floatType : Option TypeProto := some { elem_type := some 1 }

/-- A well-formed graph: input `x : float[2]`, one supported `Add` node,
output `y : float[2]`. -/
def gC1 : GraphViewer :=
  { inputs := [{ name := "x", shape := some { dim := [Dim.value 2] }, typeAsProto := floatType }]
    outputs := [{ name := "y", shape := some { dim := [Dim.value 2] }, typeAsProto := floatType }]
    initializerNames := []
    nodes := [{ name := "n1", opType := "Add" }] }

/-- A graph with a single non-initializer input `x : float[2]`. -/
def gC2 : GraphViewer :=
  { inputs := [{ name := "x", shape := some { dim := [Dim.value 2] }, typeAsProto := floatType }]
    outputs := []
    initializerNames := []
    nodes := [] }

/-- A graph whose second node has the unregistered op type "Foo". -/
def gC3 : GraphViewer :=
  { inputs := [{ name := "x", shape := some { dim := [Dim.value 2] }, typeAsProto := floatType }]
    outputs := [{ name := "y", shape := some { dim := [Dim.value 2] }, typeAsProto := floatType }]
    initializerNames := []
    nodes := [{ name := "n1", opType := "Add" }, { name := "n2", opType := "Foo" }] }

/-- A graph with a single rank-0 (scalar) float output `s`. -/
def gC4 : GraphViewer :=
  { inputs := []
    outputs := [{ name := "s", shape := some { dim := [] }, typeAsProto := floatType }]
    initializerNames := []
    nodes := [] }

/-- A graph whose only declared input `w` is an initializer with a dynamic
dimension; the rest of the graph is valid. -/
def gC5 : GraphViewer :=
  { inputs := [{ name := "w", shape := some { dim := [Dim.param] }, typeAsProto := floatType }]
    outputs := [{ name := "y", shape := some { dim := [Dim.value 2] }, typeAsProto := floatType }]
    initializerNames := ["w"]
    nodes := [] }

/-- A graph with a dynamic dimension on its (non-initializer) output `z`. -/
def gC5w : GraphViewer :=
  { inputs := []
    outputs := [{ name := "z", shape := some { dim := [Dim.param] }, typeAsProto := floatType }]
    initializerNames := []
    nodes := [] }

/-- A graph with a single valid float output `y : float[3]`. -/
def gC6 : GraphViewer :=
  { inputs := []
    outputs := [{ name := "y", shape := some { dim := [Dim.value 3] }, typeAsProto := floatType }]
    initializerNames := []
    nodes := [] }

/-- A graph with a rank-0 (scalar) float input `s` and a valid output. -/
def gC7 : GraphViewer :=
  { inputs := [{ name := "s", shape := some { dim := [] }, typeAsProto := floatType }]
    outputs := [{ name := "y", shape := some { dim := [Dim.value 2] }, typeAsProto := floatType }]
    initializerNames := []
    nodes := [] }

/-- A graph whose declared input `w` is among the initializer tensors. -/
def gC8 : GraphViewer :=
  { inputs := [{ name := "w", shape := some { dim := [Dim.value 2] }, typeAsProto := floatType }]
    outputs := []
    initializerNames := ["w"]
    nodes := [] }

/-- A graph whose first input `t` carries no shape information at all. -/
def gC10 : GraphViewer :=
  { inputs := [{ name := "t", shape := none, typeAsProto := floatType },
               { name := "a", shape := some { dim := [Dim.value 2] }, typeAsProto := floatType }]
    outputs := []
    initializerNames := []
    nodes := [] }

/-! ### Basic lemmas about the state transformers -/

@[simp]
theorem pushOutputFeature_scalar (st : ModelBuilder) (n : String) :
    (pushOutputFeature st n).scalar_outputs = st.scalar_outputs := rfl

@[simp]
theorem pushOutputFeature_info (st : ModelBuilder) (n : String) :
    (pushOutputFeature st n).input_output_info = st.input_output_info := rfl

@[simp]
theorem pushOutputFeature_inputFeats (st : ModelBuilder) (n : String) :
    (pushOutputFeature st n).coreml_model.description.input =
      st.coreml_model.description.input := rfl

@[simp]
theorem pushOutputFeature_outFeats (st : ModelBuilder) (n : String) :
    (pushOutputFeature st n).coreml_model.description.output =
      st.coreml_model.description.output ++
        [{ name := n, multiarraytype := { shape := [], datatype := none } }] := rfl

@[simp]
theorem mapLastOutput_scalar (st : ModelBuilder) (f : FeatureDescription → FeatureDescription) :
    (mapLastOutput st f).scalar_outputs = st.scalar_outputs := rfl

@[simp]
theorem mapLastOutput_info (st : ModelBuilder) (f : FeatureDescription → FeatureDescription) :
    (mapLastOutput st f).input_output_info = st.input_output_info := rfl

@[simp]
theorem mapLastOutput_inputFeats (st : ModelBuilder) (f : FeatureDescription → FeatureDescription) :
    (mapLastOutput st f).coreml_model.description.input =
      st.coreml_model.description.input := rfl

@[simp]
theorem mapLastOutput_outFeats (st : ModelBuilder) (f : FeatureDescription → FeatureDescription) :
    (mapLastOutput st f).coreml_model.description.output =
      setLastFeature f st.coreml_model.description.output := rfl

@[simp]
theorem addScalarOutput_info (st : ModelBuilder) (n : String) :
    (addScalarOutput st n).input_output_info = st.input_output_info := rfl

@[simp]
theorem addScalarOutput_inputFeats (st : ModelBuilder) (n : String) :
    (addScalarOutput st n).coreml_model.description.input =
      st.coreml_model.description.input := rfl

@[simp]
theorem addScalarOutput_outFeats (st : ModelBuilder) (n : String) :
    (addScalarOutput st n).coreml_model.description.output =
      st.coreml_model.description.output := rfl

theorem addScalarOutput_mem_self (st : ModelBuilder) (n : String) :
    n ∈ (addScalarOutput st n).scalar_outputs := by
  unfold addScalarOutput
  by_cases h : n ∈ st.scalar_outputs <;> simp [h]

theorem addScalarOutput_mem_mono (st : ModelBuilder) (n x : String)
    (h : x ∈ st.scalar_outputs) : x ∈ (addScalarOutput st n).scalar_outputs := by
  unfold addScalarOutput
  by_cases hn : n ∈ st.scalar_outputs <;> simp [hn, h]

theorem addScalarOutput_mem_cases (st : ModelBuilder) (n x : String)
    (h : x ∈ (addScalarOutput st n).scalar_outputs) :
    x ∈ st.scalar_outputs ∨ x = n := by
  unfold addScalarOutput at h
  by_cases hn : n ∈ st.scalar_outputs
  · simp [hn] at h
    exact Or.inl h
  · simp [hn] at h
    rcases h with h | h
    · exact Or.inr h
    · exact Or.inl h

@[simp]
theorem emplaceTensorInfo_scalar (st : ModelBuilder) (k : String) (v : OnnxTensorInfo) :
    (emplaceTensorInfo st k v).scalar_outputs = st.scalar_outputs := rfl

@[simp]
theorem emplaceTensorInfo_inputFeats (st : ModelBuilder) (k : String) (v : OnnxTensorInfo) :
    (emplaceTensorInfo st k v).coreml_model.description.input =
      st.coreml_model.description.input := rfl

@[simp]
theorem emplaceTensorInfo_outFeats (st : ModelBuilder) (k : String) (v : OnnxTensorInfo) :
    (emplaceTensorInfo st k v).coreml_model.description.output =
      st.coreml_model.description.output := rfl

@[simp]
theorem addLayer_scalar (st : ModelBuilder) (l : NeuralNetworkLayer) :
    (addLayer st l).scalar_outputs = st.scalar_outputs := rfl

@[simp]
theorem addLayer_info (st : ModelBuilder) (l : NeuralNetworkLayer) :
    (addLayer st l).input_output_info = st.input_output_info := rfl

@[simp]
theorem addLayer_description (st : ModelBuilder) (l : NeuralNetworkLayer) :
    (addLayer st l).coreml_model.description = st.coreml_model.description := rfl

theorem addLayers_scalar (st : ModelBuilder) (ls : List NeuralNetworkLayer) :
    (addLayers st ls).scalar_outputs = st.scalar_outputs := by
  induction ls generalizing st with
  | nil => rfl
  | cons l rest ih => simp [addLayers, ih]

theorem addLayers_info (st : ModelBuilder) (ls : List NeuralNetworkLayer) :
    (addLayers st ls).input_output_info = st.input_output_info := by
  induction ls generalizing st with
  | nil => rfl
  | cons l rest ih => simp [addLayers, ih]

theorem addLayers_description (st : ModelBuilder) (ls : List NeuralNetworkLayer) :
    (addLayers st ls).coreml_model.description = st.coreml_model.description := by
  induction ls generalizing st with
  | nil => rfl
  | cons l rest ih => simp [addLayers, ih]

theorem setLastFeature_append (l : List FeatureDescription) (x : FeatureDescription)
    (f : FeatureDescription → FeatureDescription) :
    setLastFeature f (l ++ [x]) = l ++ [f x] := by
  induction l with
  | nil => rfl
  | cons a l ih =>
    cases l with
    | nil => rfl
    | cons b l' =>
      simpa [setLastFeature] using ih

/-! ### Lemmas about the table -/

theorem lookupInfo_emplace_self (l : List (String × OnnxTensorInfo)) (k : String)
    (v : OnnxTensorInfo) :
    lookupInfo (emplaceInfo l k v) k = some ((lookupInfo l k).getD v) := by
  unfold emplaceInfo
  cases h : lookupInfo l k with
  | none => simp [h, lookupInfo]
  | some w => simp [h]

theorem lookupInfo_emplace_of_ne (l : List (String × OnnxTensorInfo)) (k k' : String)
    (v : OnnxTensorInfo) (hne : k' ≠ k) :
    lookupInfo (emplaceInfo l k v) k' = lookupInfo l k' := by
  unfold emplaceInfo
  cases h : lookupInfo l k with
  | none => simp [lookupInfo, Ne.symm hne]
  | some w => simp

theorem lookupInfo_emplace_mono (l : List (String × OnnxTensorInfo)) (k k' : String)
    (v v' : OnnxTensorInfo) (h : lookupInfo l k' = some v') :
    lookupInfo (emplaceInfo l k v) k' = some v' := by
  by_cases hk : k' = k
  · subst hk
    rw [lookupInfo_emplace_self, h]
    rfl
  · rw [lookupInfo_emplace_of_ne _ _ _ _ hk, h]

@[simp]
theorem setLastOutputShape_scalar (st : ModelBuilder) (s : List Int) :
    (setLastOutputShape st s).scalar_outputs = st.scalar_outputs := rfl

@[simp]
theorem setLastOutputShape_info (st : ModelBuilder) (s : List Int) :
    (setLastOutputShape st s).input_output_info = st.input_output_info := rfl

@[simp]
theorem setLastOutputShape_inputFeats (st : ModelBuilder) (s : List Int) :
    (setLastOutputShape st s).coreml_model.description.input =
      st.coreml_model.description.input := rfl

@[simp]
theorem appendLastOutputShape_scalar (st : ModelBuilder) (v : Int) :
    (appendLastOutputShape st v).scalar_outputs = st.scalar_outputs := rfl

@[simp]
theorem appendLastOutputShape_info (st : ModelBuilder) (v : Int) :
    (appendLastOutputShape st v).input_output_info = st.input_output_info := rfl

@[simp]
theorem appendLastOutputShape_inputFeats (st : ModelBuilder) (v : Int) :
    (appendLastOutputShape st v).coreml_model.description.input =
      st.coreml_model.description.input := rfl

@[simp]
theorem setLastOutputDatatype_scalar (st : ModelBuilder) (dt : ArrayDataType) :
    (setLastOutputDatatype st dt).scalar_outputs = st.scalar_outputs := rfl

@[simp]
theorem setLastOutputDatatype_info (st : ModelBuilder) (dt : ArrayDataType) :
    (setLastOutputDatatype st dt).input_output_info = st.input_output_info := rfl

@[simp]
theorem setLastOutputDatatype_inputFeats (st : ModelBuilder) (dt : ArrayDataType) :
    (setLastOutputDatatype st dt).coreml_model.description.input =
      st.coreml_model.description.input := rfl

@[simp]
theorem emplaceTensorInfo_info (st : ModelBuilder) (k : String) (v : OnnxTensorInfo) :
    (emplaceTensorInfo st k v).input_output_info =
      emplaceInfo st.input_output_info k v := rfl

/-! ### Lemmas about the per-dimension loops -/

theorem inputDimsToShape_param (n : String) (dims : List Dim) (h : Dim.param ∈ dims) :
    inputDimsToShape n dims =
      Except.error ("Dynamic shape is not supported yet, for input, " ++ n) := by
  induction dims with
  | nil => cases h
  | cons d rest ih =>
    cases d with
    | value v =>
      have hr : Dim.param ∈ rest := by
        cases h with
        | tail _ h' => exact h'
      simp [inputDimsToShape, ih hr, Except.map]
    | param => rfl

theorem addOutputDims_scalar (n : String) (dims : List Dim) (st : ModelBuilder) :
    ((addOutputDims n st dims).1).scalar_outputs = st.scalar_outputs := by
  induction dims generalizing st with
  | nil => rfl
  | cons d rest ih =>
    cases d with
    | value v => simpa [addOutputDims] using ih (appendLastOutputShape st v)
    | param => rfl

theorem addOutputDims_info (n : String) (dims : List Dim) (st : ModelBuilder) :
    ((addOutputDims n st dims).1).input_output_info = st.input_output_info := by
  induction dims generalizing st with
  | nil => rfl
  | cons d rest ih =>
    cases d with
    | value v => simpa [addOutputDims] using ih (appendLastOutputShape st v)
    | param => rfl

theorem addOutputDims_inputFeats (n : String) (dims : List Dim) (st : ModelBuilder) :
    ((addOutputDims n st dims).1).coreml_model.description.input =
      st.coreml_model.description.input := by
  induction dims generalizing st with
  | nil => rfl
  | cons d rest ih =>
    cases d with
    | value v => simpa [addOutputDims] using ih (appendLastOutputShape st v)
    | param => rfl

theorem addOutputDims_outFeats (n : String) (dims : List Dim) (st : ModelBuilder)
    (l : List FeatureDescription) (x : FeatureDescription)
    (h : st.coreml_model.description.output = l ++ [x]) :
    ∃ x', ((addOutputDims n st dims).1).coreml_model.description.output = l ++ [x'] ∧
      x'.name = x.name := by
  induction dims generalizing st x with
  | nil => exact ⟨x, h, rfl⟩
  | cons d rest ih =>
    cases d with
    | value v =>
      have h2 : (appendLastOutputShape st v).coreml_model.description.output =
          l ++ [{ x with multiarraytype.shape := x.multiarraytype.shape ++ [v] }] := by
        simp [appendLastOutputShape, mapLastOutput, h, setLastFeature_append]
      obtain ⟨x', hx', hn⟩ := ih (appendLastOutputShape st v) _ h2
      exact ⟨x', by simpa [addOutputDims] using hx', hn⟩
    | param => exact ⟨x, h, rfl⟩

theorem addOutputDims_param (n : String) (dims : List Dim) (h : Dim.param ∈ dims)
    (st : ModelBuilder) :
    (addOutputDims n st dims).2 =
      some ("Dynamic shape is not supported yet, for output, " ++ n) := by
  induction dims generalizing st with
  | nil => cases h
  | cons d rest ih =>
    cases d with
    | value v =>
      have hr : Dim.param ∈ rest := by
        cases h with
        | tail _ h' => exact h'
      simpa [addOutputDims] using ih hr (appendLastOutputShape st v)
    | param => rfl


/-- Convenience constructor for feature descriptions (proofs only). -/
def mkFeature (n : String) (sh : List Int) (dt : Option ArrayDataType) : FeatureDescription :=
  { name := n, multiarraytype := { shape := sh, datatype := dt } }

/-! ### Lemmas about one input-registration step -/

theorem registerModelInput_skip (inits : List String) (st : ModelBuilder) (na : NodeArg)
    (h : na.name ∈ inits) : registerModelInput inits st na = (st, none) := by
  simp [registerModelInput, h]

theorem registerModelInput_scalar (inits : List String) (st : ModelBuilder) (na : NodeArg) :
    ((registerModelInput inits st na).1).scalar_outputs = st.scalar_outputs := by
  unfold registerModelInput
  repeat' split
  all_goals simp

theorem registerModelInput_inputFeats (inits : List String) (st : ModelBuilder) (na : NodeArg) :
    ((registerModelInput inits st na).1).coreml_model.description.input =
      st.coreml_model.description.input := by
  unfold registerModelInput
  repeat' split
  all_goals simp

theorem registerModelInput_skipped (inits : List String) (st : ModelBuilder) (na : NodeArg) :
    ((registerModelInput inits st na).1).skipped_initializers = st.skipped_initializers := by
  unfold registerModelInput
  repeat' split
  all_goals rfl

theorem registerModelInput_info_fail (inits : List String) (st : ModelBuilder) (na : NodeArg)
    (s : ModelBuilder) (e : String)
    (h : registerModelInput inits st na = (s, some e)) :
    s.input_output_info = st.input_output_info := by
  unfold registerModelInput at h
  repeat' split at h
  all_goals (cases h <;> simp)

theorem registerModelInput_info_lookup_ne (inits : List String) (st : ModelBuilder)
    (na : NodeArg) (k : String) (hne : k ≠ na.name) :
    lookupInfo ((registerModelInput inits st na).1).input_output_info k =
      lookupInfo st.input_output_info k := by
  unfold registerModelInput
  repeat' split
  all_goals simp [lookupInfo_emplace_of_ne _ _ _ _ hne]

theorem registerModelInput_info_mono (inits : List String) (st : ModelBuilder)
    (na : NodeArg) (k : String) (v : OnnxTensorInfo)
    (h : lookupInfo st.input_output_info k = some v) :
    lookupInfo ((registerModelInput inits st na).1).input_output_info k = some v := by
  unfold registerModelInput
  repeat' split
  all_goals simp [h, lookupInfo_emplace_mono _ _ _ _ _ h]

theorem registerModelInput_dynamic (inits : List String) (st : ModelBuilder) (na : NodeArg)
    (sp : TensorShapeProto) (hni : na.name ∉ inits) (hsh : na.shape = some sp)
    (hdyn : Dim.param ∈ sp.dim) :
    (registerModelInput inits st na).2 =
      some ("Dynamic shape is not supported yet, for input, " ++ na.name) := by
  have hne : sp.dim.isEmpty = false := by
    cases hd : sp.dim with
    | nil => rw [hd] at hdyn; cases hdyn
    | cons a l => rfl
  simp [registerModelInput, hni, hsh, hne, inputDimsToShape_param na.name sp.dim hdyn]

theorem registerModelInput_ok_rank0 (inits : List String) (st : ModelBuilder) (na : NodeArg)
    (s : ModelBuilder) (hni : na.name ∉ inits) (hsh : na.shape = some { dim := [] })
    (h : registerModelInput inits st na = (s, none)) :
    lookupInfo s.input_output_info na.name =
      some ((lookupInfo st.input_output_info na.name).getD
        { data_type := TensorProto_DataType_FLOAT, shape := [1] }) := by
  unfold registerModelInput at h
  simp only [hni, hsh, if_false, List.isEmpty_nil, ite_true, ite_false] at h
  split at h
  · cases h
  · rename_i dt hel
    split at h
    · rename_i hdt
      injection h with h1 h2
      subst h1
      subst hdt
      simp [lookupInfo_emplace_self]
    · cases h

/-! ### Lemmas about one output-registration step -/

theorem registerModelOutput_info (st : ModelBuilder) (na : NodeArg) :
    ((registerModelOutput st na).1).input_output_info = st.input_output_info := by
  unfold registerModelOutput
  rcases na.shape with _ | sp
  · simp
  · dsimp only
    by_cases hemp : sp.dim.isEmpty
    · simp only [hemp, ite_true]
      rcases elemTypeOf na with _ | dt
      · simp
      · by_cases hdt : dt = TensorProto_DataType_FLOAT <;> simp [hdt]
    · simp only [hemp, Bool.false_eq_true, ite_false]
      rcases hA : addOutputDims na.name (pushOutputFeature st na.name) sp.dim with ⟨st2, e2⟩
      have h2 : st2.input_output_info = st.input_output_info := by
        have hh := addOutputDims_info na.name sp.dim (pushOutputFeature st na.name)
        rw [hA] at hh
        simpa using hh
      rcases e2 with _ | e
      · dsimp only
        rcases elemTypeOf na with _ | dt
        · simpa using h2
        · by_cases hdt : dt = TensorProto_DataType_FLOAT <;> simp [hdt, h2]
      · simpa using h2

theorem registerModelOutput_inputFeats (st : ModelBuilder) (na : NodeArg) :
    ((registerModelOutput st na).1).coreml_model.description.input =
      st.coreml_model.description.input := by
  unfold registerModelOutput
  rcases na.shape with _ | sp
  · simp
  · dsimp only
    by_cases hemp : sp.dim.isEmpty
    · simp only [hemp, ite_true]
      rcases elemTypeOf na with _ | dt
      · simp
      · by_cases hdt : dt = TensorProto_DataType_FLOAT <;> simp [hdt]
    · simp only [hemp, Bool.false_eq_true, ite_false]
      rcases hA : addOutputDims na.name (pushOutputFeature st na.name) sp.dim with ⟨st2, e2⟩
      have h2 : st2.coreml_model.description.input = st.coreml_model.description.input := by
        have hh := addOutputDims_inputFeats na.name sp.dim (pushOutputFeature st na.name)
        rw [hA] at hh
        simpa using hh
      rcases e2 with _ | e
      · dsimp only
        rcases elemTypeOf na with _ | dt
        · simpa using h2
        · by_cases hdt : dt = TensorProto_DataType_FLOAT <;> simp [hdt, h2]
      · simpa using h2

theorem registerModelOutput_scalar_mono (st : ModelBuilder) (na : NodeArg) (x : String)
    (h : x ∈ st.scalar_outputs) :
    x ∈ ((registerModelOutput st na).1).scalar_outputs := by
  unfold registerModelOutput
  rcases na.shape with _ | sp
  · simpa using h
  · dsimp only
    by_cases hemp : sp.dim.isEmpty
    · simp only [hemp, ite_true]
      rcases elemTypeOf na with _ | dt
      · simpa using addScalarOutput_mem_mono _ na.name x (by simpa using h)
      · by_cases hdt : dt = TensorProto_DataType_FLOAT <;>
          simpa [hdt] using addScalarOutput_mem_mono _ na.name x (by simpa using h)
    · simp only [hemp, Bool.false_eq_true, ite_false]
      rcases hA : addOutputDims na.name (pushOutputFeature st na.name) sp.dim with ⟨st2, e2⟩
      have h2 : x ∈ st2.scalar_outputs := by
        have hh := addOutputDims_scalar na.name sp.dim (pushOutputFeature st na.name)
        rw [hA] at hh
        simp only at hh
        rw [hh]
        simpa using h
      rcases e2 with _ | e
      · dsimp only
        rcases elemTypeOf na with _ | dt
        · simpa using h2
        · by_cases hdt : dt = TensorProto_DataType_FLOAT <;> simp [hdt, h2]
      · simpa using h2

theorem registerModelOutput_scalar_cases (st : ModelBuilder) (na : NodeArg) (x : String)
    (h : x ∈ ((registerModelOutput st na).1).scalar_outputs) :
    x ∈ st.scalar_outputs ∨ x = na.name := by
  unfold registerModelOutput at h
  rcases hsh : na.shape with _ | sp
  · rw [hsh] at h
    exact Or.inl (by simpa using h)
  · rw [hsh] at h
    dsimp only at h
    by_cases hemp : sp.dim.isEmpty
    · simp only [hemp, ite_true] at h
      have key : ∀ y : ModelBuilder, y.scalar_outputs =
          (addScalarOutput (pushOutputFeature st na.name) na.name).scalar_outputs →
          x ∈ y.scalar_outputs → x ∈ st.scalar_outputs ∨ x = na.name := by
        intro y hy hx
        rw [hy] at hx
        rcases addScalarOutput_mem_cases _ _ _ hx with h' | h'
        · exact Or.inl (by simpa using h')
        · exact Or.inr h'
      rcases hel : elemTypeOf na with _ | dt
      · rw [hel] at h
        dsimp only at h
        exact key _ (by simp) h
      · rw [hel] at h
        dsimp only at h
        by_cases hdt : dt = TensorProto_DataType_FLOAT
        · rw [if_pos hdt] at h
          exact key _ (by simp) h
        · rw [if_neg hdt] at h
          exact key _ (by simp) h
    · simp only [hemp, Bool.false_eq_true, ite_false] at h
      rcases hA : addOutputDims na.name (pushOutputFeature st na.name) sp.dim with ⟨st2, e2⟩
      rw [hA] at h
      have hsc : st2.scalar_outputs = st.scalar_outputs := by
        have hh := addOutputDims_scalar na.name sp.dim (pushOutputFeature st na.name)
        rw [hA] at hh
        simpa using hh
      rcases e2 with _ | e
      · dsimp only at h
        rcases hel : elemTypeOf na with _ | dt
        · rw [hel] at h
          dsimp only at h
          rw [hsc] at h
          exact Or.inl h
        · rw [hel] at h
          dsimp only at h
          by_cases hdt : dt = TensorProto_DataType_FLOAT
          · rw [if_pos hdt] at h
            simp only [setLastOutputDatatype_scalar] at h
            rw [hsc] at h
            exact Or.inl h
          · rw [if_neg hdt] at h
            dsimp only at h
            rw [hsc] at h
            exact Or.inl h
      · dsimp only at h
        rw [hsc] at h
        exact Or.inl h

theorem registerModelOutput_outFeats (st : ModelBuilder) (na : NodeArg) :
    ∃ fd, ((registerModelOutput st na).1).coreml_model.description.output =
      st.coreml_model.description.output ++ [fd] ∧ fd.name = na.name := by
  unfold registerModelOutput
  rcases na.shape with _ | sp
  · exact ⟨mkFeature na.name [] none, by simp [mkFeature], rfl⟩
  · dsimp only
    by_cases hemp : sp.dim.isEmpty
    · simp only [hemp, ite_true]
      rcases elemTypeOf na with _ | dt
      · refine ⟨mkFeature na.name [1] none, ?_, rfl⟩
        simp [mkFeature, appendLastOutputShape, mapLastOutput, setLastFeature_append]
      · by_cases hdt : dt = TensorProto_DataType_FLOAT
        · refine ⟨mkFeature na.name [1] (some ArrayDataType.FLOAT32), ?_, rfl⟩
          simp [mkFeature, hdt, setLastOutputDatatype, appendLastOutputShape,
            mapLastOutput, setLastFeature_append]
        · refine ⟨mkFeature na.name [1] none, ?_, rfl⟩
          simp [mkFeature, hdt, appendLastOutputShape, mapLastOutput, setLastFeature_append]
    · simp only [hemp, Bool.false_eq_true, ite_false]
      rcases hA : addOutputDims na.name (pushOutputFeature st na.name) sp.dim with ⟨st2, e2⟩
      obtain ⟨x', hx', hn⟩ := addOutputDims_outFeats na.name sp.dim
        (pushOutputFeature st na.name) st.coreml_model.description.output
        (mkFeature na.name [] none) (by simp [mkFeature])
      rw [hA] at hx'
      simp only at hx'
      have hn' : x'.name = na.name := by simpa [mkFeature] using hn
      rcases e2 with _ | e
      · dsimp only
        rcases elemTypeOf na with _ | dt
        · exact ⟨x', by simpa using hx', hn'⟩
        · by_cases hdt : dt = TensorProto_DataType_FLOAT
          · refine ⟨{ x' with multiarraytype.datatype := some ArrayDataType.FLOAT32 }, ?_, hn'⟩
            simp [hdt, setLastOutputDatatype, mapLastOutput, hx', setLastFeature_append]
          · exact ⟨x', by simp [hdt, hx'], hn'⟩
      · exact ⟨x', by simpa using hx', hn'⟩

theorem registerModelOutput_ok_rank0 (st : ModelBuilder) (na : NodeArg) (s : ModelBuilder)
    (hsh : na.shape = some { dim := [] })
    (h : registerModelOutput st na = (s, none)) :
    na.name ∈ s.scalar_outputs ∧
    s.coreml_model.description.output = st.coreml_model.description.output ++
      [{ name := na.name,
         multiarraytype := { shape := [1], datatype := some ArrayDataType.FLOAT32 } }] := by
  unfold registerModelOutput at h
  simp only [hsh, List.isEmpty_nil, ite_true] at h
  split at h
  · cases h
  · rename_i dt hel
    split at h
    · rename_i hdt
      injection h with h1 h2
      subst h1
      constructor
      · simpa using addScalarOutput_mem_self _ na.name
      · simp [setLastOutputDatatype, appendLastOutputShape, mapLastOutput,
          setLastFeature_append]
    · cases h

theorem registerModelOutput_dynamic (st : ModelBuilder) (na : NodeArg)
    (sp : TensorShapeProto) (hsh : na.shape = some sp) (hdyn : Dim.param ∈ sp.dim) :
    (registerModelOutput st na).2 =
      some ("Dynamic shape is not supported yet, for output, " ++ na.name) := by
  have hne : sp.dim.isEmpty = false := by
    cases hd : sp.dim with
    | nil => rw [hd] at hdyn; cases hdyn
    | cons a l => rfl
  unfold registerModelOutput
  simp only [hsh, hne, Bool.false_eq_true, ite_false]
  rcases hA : addOutputDims na.name (pushOutputFeature st na.name) sp.dim with ⟨st2, e2⟩
  have he2 : e2 = some ("Dynamic shape is not supported yet, for output, " ++ na.name) := by
    have hp := addOutputDims_param na.name sp.dim hdyn (pushOutputFeature st na.name)
    rw [hA] at hp
    exact hp
  subst he2
  simp

/-! ### Feature entries selected by name -/

/-- The feature entries of a list carrying a given name. -/
def featuresNamed (l : List FeatureDescription) (k : String) : List FeatureDescription :=
  l.filter (fun fd => fd.name == k)

theorem registerModelInput_featuresNamed_ne (inits : List String) (st : ModelBuilder)
    (na : NodeArg) (k : String) (hne : na.name ≠ k) :
    featuresNamed ((registerModelInput inits st na).1).coreml_model.description.output k =
      featuresNamed st.coreml_model.description.output k := by
  unfold registerModelInput
  repeat' split
  all_goals simp [featuresNamed, setLastOutputShape, setLastOutputDatatype, mapLastOutput,
    setLastFeature_append, List.filter_append, hne]

/-! ### Lemmas about the input-registration loop -/

theorem registerModelInputsGo_scalar (inits : List String) (l : List NodeArg)
    (st : ModelBuilder) :
    ((registerModelInputsGo inits st l).1).scalar_outputs = st.scalar_outputs := by
  induction l generalizing st with
  | nil => rfl
  | cons na rest ih =>
    unfold registerModelInputsGo
    rcases hstep : registerModelInput inits st na with ⟨st', e⟩
    have hs : st'.scalar_outputs = st.scalar_outputs := by
      have hh := registerModelInput_scalar inits st na
      rw [hstep] at hh
      exact hh
    rcases e with _ | e
    · dsimp only
      rw [ih st', hs]
    · exact hs

theorem registerModelInputsGo_inputFeats (inits : List String) (l : List NodeArg)
    (st : ModelBuilder) :
    ((registerModelInputsGo inits st l).1).coreml_model.description.input =
      st.coreml_model.description.input := by
  induction l generalizing st with
  | nil => rfl
  | cons na rest ih =>
    unfold registerModelInputsGo
    rcases hstep : registerModelInput inits st na with ⟨st', e⟩
    have hs : st'.coreml_model.description.input = st.coreml_model.description.input := by
      have hh := registerModelInput_inputFeats inits st na
      rw [hstep] at hh
      exact hh
    rcases e with _ | e
    · dsimp only
      rw [ih st', hs]
    · exact hs

theorem registerModelInputsGo_info_mono (inits : List String) (l : List NodeArg)
    (k : String) (v : OnnxTensorInfo) :
    ∀ st : ModelBuilder, lookupInfo st.input_output_info k = some v →
      lookupInfo ((registerModelInputsGo inits st l).1).input_output_info k = some v := by
  induction l with
  | nil => exact fun st h => h
  | cons na rest ih =>
    intro st h
    unfold registerModelInputsGo
    rcases hstep : registerModelInput inits st na with ⟨st', e⟩
    have hs : lookupInfo st'.input_output_info k = some v := by
      have hh := registerModelInput_info_mono inits st na k v h
      rw [hstep] at hh
      exact hh
    rcases e with _ | e
    · dsimp only
      exact ih st' hs
    · exact hs

theorem registerModelInputsGo_ok_mem (inits : List String) (l : List NodeArg)
    (s : ModelBuilder) (na : NodeArg) (hmem : na ∈ l) :
    ∀ st : ModelBuilder, registerModelInputsGo inits st l = (s, none) →
      ∃ s1 s2, registerModelInput inits s1 na = (s2, none) := by
  induction l with
  | nil => cases hmem
  | cons nb rest ih =>
    intro st h
    unfold registerModelInputsGo at h
    rcases hstep : registerModelInput inits st nb with ⟨st', e⟩
    rw [hstep] at h
    rcases e with _ | e
    · dsimp only at h
      rcases List.mem_cons.1 hmem with heq | hmem'
      · subst heq
        exact ⟨st, st', hstep⟩
      · exact ih hmem' st' h
    · cases h

theorem registerModelInputsGo_initializer_untouched (inits : List String) (l : List NodeArg)
    (key : String) (hkey : key ∈ inits) :
    ∀ st : ModelBuilder,
      lookupInfo ((registerModelInputsGo inits st l).1).input_output_info key =
        lookupInfo st.input_output_info key ∧
      featuresNamed ((registerModelInputsGo inits st l).1).coreml_model.description.output key =
        featuresNamed st.coreml_model.description.output key := by
  induction l with
  | nil => exact fun st => ⟨rfl, rfl⟩
  | cons na rest ih =>
    intro st
    unfold registerModelInputsGo
    rcases hstep : registerModelInput inits st na with ⟨st', e⟩
    have hfields : lookupInfo st'.input_output_info key = lookupInfo st.input_output_info key ∧
        featuresNamed st'.coreml_model.description.output key =
          featuresNamed st.coreml_model.description.output key := by
      by_cases hna : na.name ∈ inits
      · rw [registerModelInput_skip inits st na hna] at hstep
        injection hstep with h1 h2
        subst h1
        exact ⟨rfl, rfl⟩
      · have hne : na.name ≠ key := fun hh => hna (hh ▸ hkey)
        constructor
        · have hh := registerModelInput_info_lookup_ne inits st na key (Ne.symm hne)
          rw [hstep] at hh
          exact hh
        · have hh := registerModelInput_featuresNamed_ne inits st na key hne
          rw [hstep] at hh
          exact hh
    rcases e with _ | e
    · dsimp only
      obtain ⟨ih1, ih2⟩ := ih st'
      exact ⟨ih1.trans hfields.1, ih2.trans hfields.2⟩
    · exact hfields

theorem registerModelInputsGo_rank0_target (inits : List String) (s : ModelBuilder)
    (na : NodeArg) (hni : na.name ∉ inits) (hsh : na.shape = some { dim := [] }) :
    ∀ (l : List NodeArg) (st : ModelBuilder), na ∈ l →
      (∀ nb ∈ l, nb.name = na.name → nb = na) →
      lookupInfo st.input_output_info na.name = none →
      registerModelInputsGo inits st l = (s, none) →
      lookupInfo s.input_output_info na.name =
        some { data_type := TensorProto_DataType_FLOAT, shape := [1] } := by
  intro l
  induction l with
  | nil => intro st hmem; cases hmem
  | cons nb rest ih =>
    intro st hmem hdup hnone h
    unfold registerModelInputsGo at h
    rcases hstep : registerModelInput inits st nb with ⟨st', e⟩
    rw [hstep] at h
    rcases e with _ | e
    · dsimp only at h
      by_cases heq : nb = na
      · subst heq
        have hl : lookupInfo st'.input_output_info nb.name =
            some { data_type := TensorProto_DataType_FLOAT, shape := [1] } := by
          have hh := registerModelInput_ok_rank0 inits st nb st' hni hsh hstep
          rw [hnone] at hh
          simpa using hh
        have hm := registerModelInputsGo_info_mono inits rest nb.name _ st' hl
        rw [h] at hm
        exact hm
      · have hne : nb.name ≠ na.name := fun hh => heq (hdup nb (List.mem_cons_self _ _) hh)
        have hnone' : lookupInfo st'.input_output_info na.name = none := by
          have hh := registerModelInput_info_lookup_ne inits st nb na.name (Ne.symm hne)
          rw [hstep] at hh
          rw [hh]
          exact hnone
        have hmem' : na ∈ rest := by
          rcases List.mem_cons.1 hmem with heq' | hmem'
          · exact absurd heq'.symm heq
          · exact hmem'
        have hdup' : ∀ x ∈ rest, x.name = na.name → x = na := fun x hx hxn =>
          hdup x (List.mem_cons_of_mem _ hx) hxn
        exact ih st' hmem' hdup' hnone' h
    · cases h

/-! ### Lemmas about the output-registration loop -/

theorem registerModelOutputsGo_info (l : List NodeArg) (st : ModelBuilder) :
    ((registerModelOutputsGo st l).1).input_output_info = st.input_output_info := by
  induction l generalizing st with
  | nil => rfl
  | cons na rest ih =>
    unfold registerModelOutputsGo
    rcases hstep : registerModelOutput st na with ⟨st', e⟩
    have hs : st'.input_output_info = st.input_output_info := by
      have hh := registerModelOutput_info st na
      rw [hstep] at hh
      exact hh
    rcases e with _ | e
    · dsimp only
      rw [ih st', hs]
    · exact hs

theorem registerModelOutputsGo_inputFeats (l : List NodeArg) (st : ModelBuilder) :
    ((registerModelOutputsGo st l).1).coreml_model.description.input =
      st.coreml_model.description.input := by
  induction l generalizing st with
  | nil => rfl
  | cons na rest ih =>
    unfold registerModelOutputsGo
    rcases hstep : registerModelOutput st na with ⟨st', e⟩
    have hs : st'.coreml_model.description.input = st.coreml_model.description.input := by
      have hh := registerModelOutput_inputFeats st na
      rw [hstep] at hh
      exact hh
    rcases e with _ | e
    · dsimp only
      rw [ih st', hs]
    · exact hs

theorem registerModelOutputsGo_scalar_mono (l : List NodeArg) (x : String) :
    ∀ st : ModelBuilder, x ∈ st.scalar_outputs →
      x ∈ ((registerModelOutputsGo st l).1).scalar_outputs := by
  induction l with
  | nil => exact fun st h => h
  | cons na rest ih =>
    intro st h
    unfold registerModelOutputsGo
    rcases hstep : registerModelOutput st na with ⟨st', e⟩
    have hs : x ∈ st'.scalar_outputs := by
      have hh := registerModelOutput_scalar_mono st na x h
      rw [hstep] at hh
      exact hh
    rcases e with _ | e
    · dsimp only
      exact ih st' hs
    · exact hs

theorem registerModelOutputsGo_scalar_cases (l : List NodeArg) (x : String) :
    ∀ st : ModelBuilder, x ∈ ((registerModelOutputsGo st l).1).scalar_outputs →
      x ∈ st.scalar_outputs ∨ ∃ nb ∈ l, nb.name = x := by
  induction l with
  | nil => exact fun st h => Or.inl h
  | cons na rest ih =>
    intro st h
    unfold registerModelOutputsGo at h
    rcases hstep : registerModelOutput st na with ⟨st', e⟩
    rw [hstep] at h
    have step_cases : x ∈ st'.scalar_outputs → x ∈ st.scalar_outputs ∨ x = na.name := by
      intro hx
      have hh := registerModelOutput_scalar_cases st na x (by rw [hstep]; exact hx)
      exact hh
    rcases e with _ | e
    · dsimp only at h
      rcases ih st' h with h' | ⟨nb, hnb, hname⟩
      · rcases step_cases h' with h'' | h''
        · exact Or.inl h''
        · exact Or.inr ⟨na, List.mem_cons_self _ _, h''.symm⟩
      · exact Or.inr ⟨nb, List.mem_cons_of_mem _ hnb, hname⟩
    · rcases step_cases h with h'' | h''
      · exact Or.inl h''
      · exact Or.inr ⟨na, List.mem_cons_self _ _, h''.symm⟩

theorem registerModelOutputsGo_feat_mono (l : List NodeArg) (fd : FeatureDescription) :
    ∀ st : ModelBuilder, fd ∈ st.coreml_model.description.output →
      fd ∈ ((registerModelOutputsGo st l).1).coreml_model.description.output := by
  induction l with
  | nil => exact fun st h => h
  | cons na rest ih =>
    intro st h
    unfold registerModelOutputsGo
    rcases hstep : registerModelOutput st na with ⟨st', e⟩
    have hs : fd ∈ st'.coreml_model.description.output := by
      obtain ⟨fd', hfd', _⟩ := registerModelOutput_outFeats st na
      rw [hstep] at hfd'
      dsimp only at hfd'
      rw [hfd']
      exact List.mem_append_left _ h
    rcases e with _ | e
    · dsimp only
      exact ih st' hs
    · exact hs

theorem registerModelOutputsGo_ok_mem (l : List NodeArg) (s : ModelBuilder) (na : NodeArg)
    (hmem : na ∈ l) :
    ∀ st : ModelBuilder, registerModelOutputsGo st l = (s, none) →
      ∃ s1 s2, registerModelOutput s1 na = (s2, none) := by
  induction l with
  | nil => cases hmem
  | cons nb rest ih =>
    intro st h
    unfold registerModelOutputsGo at h
    rcases hstep : registerModelOutput st nb with ⟨st', e⟩
    rw [hstep] at h
    rcases e with _ | e
    · dsimp only at h
      rcases List.mem_cons.1 hmem with heq | hmem'
      · subst heq
        exact ⟨st, st', hstep⟩
      · exact ih hmem' st' h
    · cases h

theorem registerModelOutputsGo_rank0_main (l : List NodeArg) (s : ModelBuilder)
    (na : NodeArg) (hmem : na ∈ l) (hsh : na.shape = some { dim := [] }) :
    ∀ st : ModelBuilder, registerModelOutputsGo st l = (s, none) →
      na.name ∈ s.scalar_outputs ∧
      mkFeature na.name [1] (some ArrayDataType.FLOAT32) ∈
        s.coreml_model.description.output := by
  induction l with
  | nil => cases hmem
  | cons nb rest ih =>
    intro st h
    unfold registerModelOutputsGo at h
    rcases hstep : registerModelOutput st nb with ⟨st', e⟩
    rw [hstep] at h
    rcases e with _ | e
    · dsimp only at h
      rcases List.mem_cons.1 hmem with heq | hmem'
      · subst heq
        obtain ⟨hscal, hout⟩ := registerModelOutput_ok_rank0 st na st' hsh hstep
        constructor
        · have hm := registerModelOutputsGo_scalar_mono rest na.name st' hscal
          rw [h] at hm
          exact hm
        · have hfd : mkFeature na.name [1] (some ArrayDataType.FLOAT32) ∈
              st'.coreml_model.description.output := by
            rw [hout]
            exact List.mem_append_right _ (by simp [mkFeature])
          have hm := registerModelOutputsGo_feat_mono rest _ st' hfd
          rw [h] at hm
          exact hm
      · exact ih hmem' st' h
    · cases h

/-! ### Lemmas about operator dispatch and preprocessing -/

theorem addLayers_skipped (st : ModelBuilder) (ls : List NeuralNetworkLayer) :
    (addLayers st ls).skipped_initializers = st.skipped_initializers := by
  induction ls generalizing st with
  | nil => rfl
  | cons l rest ih => simp [addLayers, ih, addLayer]

theorem addOperationsGo_state (bs : OpBuilders) (l : List Node) (st : ModelBuilder) :
    ((addOperationsGo bs st l).1).scalar_outputs = st.scalar_outputs ∧
    ((addOperationsGo bs st l).1).input_output_info = st.input_output_info ∧
    ((addOperationsGo bs st l).1).coreml_model.description = st.coreml_model.description := by
  induction l generalizing st with
  | nil => exact ⟨rfl, rfl, rfl⟩
  | cons n rest ih =>
    unfold addOperationsGo
    rcases hb : getOpBuilder bs n with _ | b
    · dsimp only
      exact ⟨rfl, rfl, rfl⟩
    · dsimp only
      rcases hE : b.addToModelBuilder st n with e | ls
      · dsimp only
        exact ⟨rfl, rfl, rfl⟩
      · dsimp only
        obtain ⟨ih1, ih2, ih3⟩ := ih (addLayers st ls)
        exact ⟨ih1.trans (addLayers_scalar st ls),
          ih2.trans (addLayers_info st ls),
          ih3.trans (addLayers_description st ls)⟩

theorem addOperationsGo_unsupported (bs : OpBuilders) (n : Node)
    (hn : getOpBuilder bs n = none) :
    ∀ (pre rest : List Node),
      (∀ m ∈ pre, ∃ b, getOpBuilder bs m = some b) →
      (∀ m ∈ pre, ∀ b, getOpBuilder bs m = some b →
        ∀ s : ModelBuilder, ∃ ls, b.addToModelBuilder s m = Except.ok ls) →
      ∀ st : ModelBuilder,
        (addOperationsGo bs st (pre ++ n :: rest)).2 =
          some ("Node [" ++ n.name ++ "], type [" ++ n.opType ++ "] is not supported") := by
  intro pre
  induction pre with
  | nil =>
    intro rest _ _ st
    rw [List.nil_append]
    simp only [addOperationsGo]
    rw [hn]
  | cons m pre' ih =>
    intro rest hpre hemit st
    obtain ⟨b, hb⟩ := hpre m (List.mem_cons_self _ _)
    obtain ⟨ls, hls⟩ := hemit m (List.mem_cons_self _ _) b hb st
    rw [List.cons_append]
    simp only [addOperationsGo, hb, hls]
    exact ih rest (fun x hx => hpre x (List.mem_cons_of_mem _ hx))
      (fun x hx => hemit x (List.mem_cons_of_mem _ hx)) (addLayers st ls)

theorem preprocessInitializersGo_fields (bs : OpBuilders) (l : List Node)
    (st : ModelBuilder) :
    (preprocessInitializersGo bs st l).coreml_model = st.coreml_model ∧
    (preprocessInitializersGo bs st l).scalar_outputs = st.scalar_outputs ∧
    (preprocessInitializersGo bs st l).input_output_info = st.input_output_info := by
  induction l generalizing st with
  | nil => exact ⟨rfl, rfl, rfl⟩
  | cons n rest ih =>
    unfold preprocessInitializersGo
    rcases getOpBuilder bs n with _ | b
    · exact ih st
    · exact ih _

/-! ### Decomposition of `prepare` and `compile` -/

theorem prepare_ok (bs : OpBuilders) (g : GraphViewer) (st : ModelBuilder)
    (h : prepare bs g = (st, none)) :
    ∃ st3 st4,
      registerModelInputs g (preprocessInitializersGo bs initState g.nodes) = (st3, none) ∧
      addOperationsGo bs st3 g.nodes = (st4, none) ∧
      registerModelOutputsGo st4 g.outputs = (st, none) := by
  unfold prepare at h
  dsimp only [registerInitializers] at h
  rcases h1 : registerModelInputs g (preprocessInitializersGo bs initState g.nodes)
    with ⟨st3, e3⟩
  rw [h1] at h
  rcases e3 with _ | e
  · dsimp only at h
    rcases h2 : addOperationsGo bs st3 g.nodes with ⟨st4, e4⟩
    rw [h2] at h
    rcases e4 with _ | e
    · dsimp only at h
      refine ⟨st3, st4, ?_, ?_, ?_⟩ <;> first | rfl | assumption
    · cases h
  · cases h

theorem prepare_err_of_inputs (bs : OpBuilders) (g : GraphViewer) (st3 : ModelBuilder)
    (e : String)
    (h : registerModelInputs g (preprocessInitializersGo bs initState g.nodes) =
      (st3, some e)) :
    prepare bs g = (st3, some e) := by
  unfold prepare
  dsimp only [registerInitializers]
  rw [h]

theorem prepare_err_of_ops (bs : OpBuilders) (g : GraphViewer) (st3 st4 : ModelBuilder)
    (e : String)
    (h1 : registerModelInputs g (preprocessInitializersGo bs initState g.nodes) =
      (st3, none))
    (h2 : addOperationsGo bs st3 g.nodes = (st4, some e)) :
    prepare bs g = (st4, some e) := by
  unfold prepare
  dsimp only [registerInitializers]
  rw [h1]
  dsimp only
  rw [h2]

theorem compile_ok (bs : OpBuilders) (serOk : SpecModel → Bool) (g : GraphViewer)
    (path : String) (m : Model) (fs : Option (String × SpecModel))
    (h : compile bs serOk g path = (Except.ok m, fs)) :
    ∃ st, prepare bs g = (st, none) ∧ serOk st.coreml_model = true ∧
      m = (Model.atPath path).setScalarOutputs st.scalar_outputs ∧
      fs = some (path, st.coreml_model) := by
  unfold compile at h
  rcases hp : prepare bs g with ⟨st, e⟩
  rw [hp] at h
  rcases e with _ | e
  · dsimp only at h
    by_cases hs : serOk st.coreml_model
    · rw [if_pos hs] at h
      injection h with h1 h2
      injection h1 with h1
      exact ⟨st, rfl, hs, h1.symm, h2.symm⟩
    · rw [if_neg hs] at h
      injection h with h1 h2
      cases h1
  · dsimp only at h
    injection h with h1 h2
    cases h1

theorem compile_of_prepare_err (bs : OpBuilders) (serOk : SpecModel → Bool)
    (g : GraphViewer) (path : String) (st : ModelBuilder) (e : String)
    (h : prepare bs g = (st, some e)) :
    compile bs serOk g path = (Except.error e, none) := by
  unfold compile
  rw [h]

/-! ### Small auxiliary lemmas -/

theorem contains_eq_true_of_mem {l : List String} {a : String} (h : a ∈ l) :
    l.contains a = true :=
  List.elem_eq_true_of_mem h

theorem contains_eq_false_of_not_mem {l : List String} {a : String} (h : a ∉ l) :
    l.contains a = false := by
  cases hc : l.contains a
  · rfl
  · exact absurd (List.mem_of_elem_eq_true hc) h

theorem registerModelInputsGo_append (inits : List String) (l1 l2 : List NodeArg) :
    ∀ st : ModelBuilder, registerModelInputsGo inits st (l1 ++ l2) =
      match registerModelInputsGo inits st l1 with
      | (s, none) => registerModelInputsGo inits s l2
      | (s, some e) => (s, some e) := by
  induction l1 with
  | nil => intro st; rfl
  | cons na rest ih =>
    intro st
    rw [List.cons_append]
    simp only [registerModelInputsGo]
    rcases hstep : registerModelInput inits st na with ⟨st', e⟩
    rcases e with _ | e
    · dsimp only
      exact ih st'
    · rfl

/-! ### Concrete fixtures for the claim witnesses -/

/-- The Model produced by a successful compile that recorded no scalar
outputs: every list in it is empty. -/
def mEmpty : Model :=
  { path := "p", scalar_outputs := [], inputs := [], outputs := [], input_output_info := [] }

/-- The artifact written when compiling `gC1`. -/
def artC1 : SpecModel :=
  { specificationversion := 4
    description :=
      { input := []
        output := [mkFeature "x" [2] (some ArrayDataType.FLOAT32),
                   mkFeature "y" [2] (some ArrayDataType.FLOAT32)] }
    neuralnetwork :=
      { arrayinputshapemapping := ShapeMapping.EXACT_ARRAY_MAPPING
        layers := [{ name := "n1" }] } }

/-- The Model produced by compiling `gC4` (scalar output "s"). -/
def mC4 : Model :=
  { path := "p", scalar_outputs := ["s"], inputs := [], outputs := [],
    input_output_info := [] }

/-- The artifact written when compiling `gC4`. -/
def artC4 : SpecModel :=
  { specificationversion := 4
    description :=
      { input := []
        output := [mkFeature "s" [1] (some ArrayDataType.FLOAT32)] }
    neuralnetwork :=
      { arrayinputshapemapping := ShapeMapping.EXACT_ARRAY_MAPPING
        layers := [] } }

/-- The artifact written when compiling `gC5` (the initializer input `w` is
skipped, so only the output feature `y` appears). -/
def artC5 : SpecModel :=
  { specificationversion := 4
    description :=
      { input := []
        output := [mkFeature "y" [2] (some ArrayDataType.FLOAT32)] }
    neuralnetwork :=
      { arrayinputshapemapping := ShapeMapping.EXACT_ARRAY_MAPPING
        layers := [] } }

/-- The artifact written when compiling `gC7`. -/
def artC7 : SpecModel :=
  { specificationversion := 4
    description :=
      { input := []
        output := [mkFeature "s" [1] (some ArrayDataType.FLOAT32),
                   mkFeature "y" [2] (some ArrayDataType.FLOAT32)] }
    neuralnetwork :=
      { arrayinputshapemapping := ShapeMapping.EXACT_ARRAY_MAPPING
        layers := [] } }

/-- The builder state after input registration succeeds on `gC3`. -/
def stC3 : ModelBuilder :=
  { coreml_model :=
      { specificationversion := 4
        description :=
          { input := []
            output := [mkFeature "x" [2] (some ArrayDataType.FLOAT32)] }
        neuralnetwork :=
          { arrayinputshapemapping := ShapeMapping.EXACT_ARRAY_MAPPING
            layers := [] } }
    scalar_outputs := []
    input_output_info := [("x", { data_type := 1, shape := [2] })]
    skipped_initializers := [] }

/-- The builder state at the moment input validation fails on `gC10`'s first
input `t` (the fresh feature was pushed, nothing else was recorded). -/
def s2C10 : ModelBuilder :=
  { coreml_model :=
      { specificationversion := 4
        description :=
          { input := []
            output := [mkFeature "t" [] none] }
        neuralnetwork :=
          { arrayinputshapemapping := ShapeMapping.EXACT_ARRAY_MAPPING
            layers := [] } }
    scalar_outputs := []
    input_output_info := []
    skipped_initializers := [] }

/-- The dynamic-dimension initializer input of `gC5`. -/
def wDyn : NodeArg :=
  { name := "w", shape := some { dim := [Dim.param] }, typeAsProto := floatType }

/-- The dynamic-dimension output of `gC5w`. -/
def zDyn : NodeArg :=
  { name := "z", shape := some { dim := [Dim.param] }, typeAsProto := floatType }

/-! ### Claim theorems -/

/-- C1 (counterexample): compiling the fully valid graph `gC1` (input "x",
output "y") succeeds, yet the returned Model's `GetInputs`/`GetOutputs` are
empty rather than the graph's declared name lists — `Compile` never calls
`SetInputs`/`SetOutputs`/`SetInputOutputInfo`. -/
theorem compile_roundtrip_name_lists_cex :
    compile bs0 ser0 gC1 "p" = (Except.ok mEmpty, some ("p", artC1)) ∧
    gC1.inputs.map NodeArg.name = ["x"] ∧
    gC1.outputs.map NodeArg.name = ["y"] ∧
    Model.getInputs mEmpty ≠ gC1.inputs.map NodeArg.name ∧
    Model.getOutputs mEmpty ≠ gC1.outputs.map NodeArg.name :=
  ⟨rfl, rfl, rfl, by decide, by decide⟩

/-- C1 (amended): the Model handle returned by a successful compile carries
only the scalar-output set; its input-name list, output-name list and
name-to-descriptor table are always empty, so `GetInputs`/`GetOutputs` do not
return the graph's declared names. -/
theorem compile_transfers_only_scalar_outputs (bs : OpBuilders) (serOk : SpecModel → Bool)
    (g : GraphViewer) (path : String) (m : Model) (fs : Option (String × SpecModel))
    (h : compile bs serOk g path = (Except.ok m, fs)) :
    Model.getInputs m = [] ∧ Model.getOutputs m = [] ∧ m.input_output_info = [] ∧
    m.scalar_outputs = ((prepare bs g).1).scalar_outputs := by
  obtain ⟨st, hp, hser, hm, hfs⟩ := compile_ok bs serOk g path m fs h
  subst hm
  rw [hp]
  exact ⟨rfl, rfl, rfl, rfl⟩

/-- C1 (witness): the amended statement applied to the concrete graph `gC1`. -/
theorem compile_transfers_only_scalar_outputs_witness :
    compile bs0 ser0 gC1 "p" = (Except.ok mEmpty, some ("p", artC1)) ∧
    (Model.getInputs mEmpty = [] ∧ Model.getOutputs mEmpty = [] ∧
      mEmpty.input_output_info = [] ∧
      mEmpty.scalar_outputs = ((prepare bs0 gC1).1).scalar_outputs) :=
  ⟨rfl, compile_transfers_only_scalar_outputs bs0 ser0 gC1 "p" mEmpty
    (some ("p", artC1)) rfl⟩

/-- C2 (code bug): registering the valid non-initializer input "x" of `gC2`
succeeds, but the feature entry lands in the model description's OUTPUT
feature list (`mutable_output()->Add()` on line 139 of the source) while the
input feature list stays empty — the code's own comments and the variable
name `input` show the entry was meant for the input list. -/
theorem registerModelInputs_feature_goes_to_output_list :
    (registerModelInputs gC2 initState).2 = none ∧
    ((registerModelInputs gC2 initState).1).coreml_model.description.input = [] ∧
    ((registerModelInputs gC2 initState).1).coreml_model.description.output =
      [mkFeature "x" [2] (some ArrayDataType.FLOAT32)] :=
  ⟨rfl, rfl, rfl⟩

/-- C5 (counterexample): `gC5` declares the input `w` with a dynamic
dimension, but `w` is an initializer, so input registration skips it and
compile succeeds, writing an artifact — contradicting the claim that every
graph with a dynamic dimension on an input fails before serialization. -/
theorem compile_dynamic_dim_cex :
    gC5.inputs = [wDyn] ∧
    gC5.initializerNames = ["w"] ∧
    compile bs0 ser0 gC5 "p" = (Except.ok mEmpty, some ("p", artC5)) :=
  ⟨rfl, rfl, rfl⟩

/-- C5 (amended): a dynamic/symbolic dimension on a NON-INITIALIZER input or
on any output makes compile fail, and the failure happens before the
serialization step: no artifact is written. -/
theorem compile_dynamic_dim_fails_before_serialization (bs : OpBuilders)
    (serOk : SpecModel → Bool) (g : GraphViewer) (path : String) (na : NodeArg)
    (sp : TensorShapeProto) (hsh : na.shape = some sp) (hdyn : Dim.param ∈ sp.dim)
    (hloc : (na ∈ g.inputs ∧ na.name ∉ g.initializerNames) ∨ na ∈ g.outputs) :
    ∃ e, compile bs serOk g path = (Except.error e, none) := by
  rcases hp : prepare bs g with ⟨st, eo⟩
  rcases eo with _ | e
  · exfalso
    obtain ⟨st3, st4, h1, h2, h3⟩ := prepare_ok bs g st hp
    rcases hloc with ⟨hin, hni⟩ | hout
    · obtain ⟨s1, s2, hok⟩ := registerModelInputsGo_ok_mem g.initializerNames g.inputs
        st3 na hin (preprocessInitializersGo bs initState g.nodes) h1
      have hd := registerModelInput_dynamic g.initializerNames s1 na sp hni hsh hdyn
      rw [hok] at hd
      cases hd
    · obtain ⟨s1, s2, hok⟩ := registerModelOutputsGo_ok_mem g.outputs st na hout st4 h3
      have hd := registerModelOutput_dynamic s1 na sp hsh hdyn
      rw [hok] at hd
      cases hd
  · exact ⟨e, compile_of_prepare_err bs serOk g path st e hp⟩

/-- C5 (witness): the amended statement applied to `gC5w`, whose output `z`
has a dynamic dimension. -/
theorem compile_dynamic_dim_fails_witness :
    gC5w.outputs = [zDyn] ∧
    (∃ e, compile bs0 ser0 gC5w "p" = (Except.error e, none)) :=
  ⟨rfl, compile_dynamic_dim_fails_before_serialization bs0 ser0 gC5w "p"
    zDyn { dim := [Dim.param] } rfl (by decide) (Or.inr (by decide))⟩

/-- C6 (counterexample): `gC6`'s output `y` passes validation and `prepare`
succeeds, yet the name-to-descriptor table holds no entry for "y": output
registration never records descriptors. -/
theorem output_descriptor_not_recorded_cex :
    (prepare bs0 gC6).2 = none ∧
    gC6.outputs.map NodeArg.name = ["y"] ∧
    lookupInfo ((prepare bs0 gC6).1).input_output_info "y" = none :=
  ⟨rfl, rfl, rfl⟩

/-- C6 (amended): output registration applies the validation rules but
records NO entry in the name-to-descriptor table: `RegisterModelOutputs`
leaves the table exactly as it was (descriptors are recorded only during
input registration; only the unused helper `RegisterModelInputOutput` would
record them for outputs as well). -/
theorem registerModelOutputs_table_unchanged (g : GraphViewer) (st : ModelBuilder) :
    ((registerModelOutputs g st).1).input_output_info = st.input_output_info :=
  registerModelOutputsGo_info g.outputs st

/-- C3: if the graph's nodes are `pre ++ n :: rest` where every node of `pre`
has a registered translator whose emit step succeeds, `n` has none, and input
registration succeeded, then compile fails with the Unsupported-operator
error naming exactly `n` and its op type (so with several unsupported nodes,
the first in topological order is reported), and no artifact is written. -/
theorem compile_unsupported_op_first_error (bs : OpBuilders) (serOk : SpecModel → Bool)
    (g : GraphViewer) (path : String) (pre : List Node) (n : Node) (rest : List Node)
    (hnodes : g.nodes = pre ++ n :: rest)
    (hn : getOpBuilder bs n = none)
    (hpre : ∀ m ∈ pre, ∃ b, getOpBuilder bs m = some b)
    (hemit : ∀ m ∈ pre, ∀ b, getOpBuilder bs m = some b →
      ∀ s : ModelBuilder, ∃ ls, b.addToModelBuilder s m = Except.ok ls)
    (st3 : ModelBuilder)
    (hin : registerModelInputs g (preprocessInitializersGo bs initState g.nodes) =
      (st3, none)) :
    compile bs serOk g path =
      (Except.error ("Node [" ++ n.name ++ "], type [" ++ n.opType ++
        "] is not supported"), none) := by
  have hops := addOperationsGo_unsupported bs n hn pre rest hpre hemit st3
  rw [← hnodes] at hops
  rcases hA : addOperationsGo bs st3 g.nodes with ⟨st4, e4⟩
  rw [hA] at hops
  dsimp only at hops
  subst hops
  exact compile_of_prepare_err bs serOk g path st4 _
    (prepare_err_of_ops bs g st3 st4 _ hin hA)

/-- C3 (witness): the statement applied to `gC3`, whose second node `n2` has
the unregistered op type "Foo". -/
theorem compile_unsupported_op_first_error_witness :
    getOpBuilder bs0 { name := "n2", opType := "Foo" } = none ∧
    gC3.nodes = [{ name := "n1", opType := "Add" }] ++
      { name := "n2", opType := "Foo" } :: [] ∧
    compile bs0 ser0 gC3 "p" =
      (Except.error "Node [n2], type [Foo] is not supported", none) :=
  ⟨rfl, rfl,
    compile_unsupported_op_first_error bs0 ser0 gC3 "p"
      [{ name := "n1", opType := "Add" }] { name := "n2", opType := "Foo" } [] rfl rfl
      (by
        intro m hm
        have hm' : m = { name := "n1", opType := "Add" } := by simpa using hm
        subst hm'
        exact ⟨addOpBuilder, rfl⟩)
      (by
        intro m hm b hb s
        have hm' : m = { name := "n1", opType := "Add" } := by simpa using hm
        subst hm'
        have hb2 : b = addOpBuilder := by
          have hsome : (some addOpBuilder : Option OpBuilder) = some b := by
            rw [← hb]
            rfl
          exact (Option.some.inj hsome).symm
        subst hb2
        exact ⟨[{ name := "n1" }], rfl⟩)
      stC3 rfl⟩

/-- C4: a successful compile of a graph with a rank-0 output records that
output's name in the scalar-output set transferred to the Model
(`IsScalarOutput` answers true) and the written artifact carries a feature
for that name with shape `[1]` in its output feature list. -/
theorem compile_rank0_output_scalar (bs : OpBuilders) (serOk : SpecModel → Bool)
    (g : GraphViewer) (path : String) (m : Model) (fs : Option (String × SpecModel))
    (na : NodeArg)
    (hc : compile bs serOk g path = (Except.ok m, fs))
    (hna : na ∈ g.outputs)
    (hsh : na.shape = some { dim := [] }) :
    Model.isScalarOutput m na.name = true ∧
    ∃ art, fs = some (path, art) ∧
      mkFeature na.name [1] (some ArrayDataType.FLOAT32) ∈ art.description.output := by
  obtain ⟨st, hp, hser, hm, hfs⟩ := compile_ok bs serOk g path m fs hc
  obtain ⟨st3, st4, h1, h2, h3⟩ := prepare_ok bs g st hp
  obtain ⟨hscal, hfd⟩ := registerModelOutputsGo_rank0_main g.outputs st na hna hsh st4 h3
  constructor
  · subst hm
    exact contains_eq_true_of_mem hscal
  · exact ⟨st.coreml_model, hfs, hfd⟩

/-- C4 (witness): the statement applied to `gC4`, whose only output `s` has
an empty (rank-0) declared shape. -/
theorem compile_rank0_output_scalar_witness :
    compile bs0 ser0 gC4 "p" = (Except.ok mC4, some ("p", artC4)) ∧
    (Model.isScalarOutput mC4 "s" = true ∧
      ∃ art, (some ("p", artC4) : Option (String × SpecModel)) = some ("p", art) ∧
        mkFeature "s" [1] (some ArrayDataType.FLOAT32) ∈ art.description.output) :=
  ⟨rfl, compile_rank0_output_scalar bs0 ser0 gC4 "p" mC4 (some ("p", artC4))
    { name := "s", shape := some { dim := [] }, typeAsProto := floatType }
    rfl (by decide) rfl⟩

/-- C7: for a successful compile of a graph whose non-initializer input `na`
has an empty (rank-0) declared shape (and whose name is unique among inputs
and not an output name), the builder's table records `na` with shape `[1]`
(and the float element type), and `na`'s name is not in the scalar-output
set: `IsScalarOutput` stays false — scalar tracking applies only to outputs. -/
theorem compile_rank0_input_descriptor (bs : OpBuilders) (serOk : SpecModel → Bool)
    (g : GraphViewer) (path : String) (m : Model) (fs : Option (String × SpecModel))
    (na : NodeArg)
    (hc : compile bs serOk g path = (Except.ok m, fs))
    (hna : na ∈ g.inputs)
    (hni : na.name ∉ g.initializerNames)
    (hsh : na.shape = some { dim := [] })
    (hdup : ∀ nb ∈ g.inputs, nb.name = na.name → nb = na)
    (hout : ∀ nb ∈ g.outputs, nb.name ≠ na.name) :
    lookupInfo ((prepare bs g).1).input_output_info na.name =
      some { data_type := TensorProto_DataType_FLOAT, shape := [1] } ∧
    Model.isScalarOutput m na.name = false := by
  obtain ⟨st, hp, hser, hm, hfs⟩ := compile_ok bs serOk g path m fs hc
  obtain ⟨st3, st4, h1, h2, h3⟩ := prepare_ok bs g st hp
  have h1go : registerModelInputsGo g.initializerNames
      (preprocessInitializersGo bs initState g.nodes) g.inputs = (st3, none) := h1
  have hfresh : lookupInfo
      (preprocessInitializersGo bs initState g.nodes).input_output_info na.name = none := by
    rw [(preprocessInitializersGo_fields bs g.nodes initState).2.2]
    rfl
  have htab3 : lookupInfo st3.input_output_info na.name =
      some { data_type := TensorProto_DataType_FLOAT, shape := [1] } :=
    registerModelInputsGo_rank0_target g.initializerNames st3 na hni hsh g.inputs
      (preprocessInitializersGo bs initState g.nodes) hna hdup hfresh h1go
  have h43 : st4.input_output_info = st3.input_output_info := by
    have hh := (addOperationsGo_state bs g.nodes st3).2.1
    rw [h2] at hh
    exact hh
  have hst : lookupInfo st.input_output_info na.name =
      some { data_type := TensorProto_DataType_FLOAT, shape := [1] } := by
    have hh := registerModelOutputsGo_info g.outputs st4
    rw [h3] at hh
    dsimp only at hh
    rw [hh, h43]
    exact htab3
  constructor
  · rw [hp]
    exact hst
  · subst hm
    have hnot : na.name ∉ st.scalar_outputs := by
      intro hmem
      have hmem' : na.name ∈ ((registerModelOutputsGo st4 g.outputs).1).scalar_outputs := by
        rw [h3]
        exact hmem
      rcases registerModelOutputsGo_scalar_cases g.outputs na.name st4 hmem'
        with hin4 | ⟨nb, hnb, hname⟩
      · have e1 : st4.scalar_outputs = st3.scalar_outputs := by
          have hh := (addOperationsGo_state bs g.nodes st3).1
          rw [h2] at hh
          exact hh
        have e2 : st3.scalar_outputs =
            (preprocessInitializersGo bs initState g.nodes).scalar_outputs := by
          have hh := registerModelInputsGo_scalar g.initializerNames g.inputs
            (preprocessInitializersGo bs initState g.nodes)
          rw [h1go] at hh
          exact hh
        have e3 : (preprocessInitializersGo bs initState g.nodes).scalar_outputs = [] :=
          (preprocessInitializersGo_fields bs g.nodes initState).2.1
        rw [e1, e2, e3] at hin4
        cases hin4
      · exact hout nb hnb hname
    exact contains_eq_false_of_not_mem hnot

/-- C7 (witness): the statement applied to `gC7`, whose input `s` is rank-0. -/
theorem compile_rank0_input_descriptor_witness :
    compile bs0 ser0 gC7 "p" = (Except.ok mEmpty, some ("p", artC7)) ∧
    (lookupInfo ((prepare bs0 gC7).1).input_output_info "s" =
      some { data_type := TensorProto_DataType_FLOAT, shape := [1] } ∧
      Model.isScalarOutput mEmpty "s" = false) :=
  ⟨rfl, compile_rank0_input_descriptor bs0 ser0 gC7 "p" mEmpty (some ("p", artC7))
    { name := "s", shape := some { dim := [] }, typeAsProto := floatType }
    rfl (by decide) (by decide) rfl (by decide) (by decide)⟩

/-- C8: for any name among the graph's initializer tensors (which includes
every initializer consumed by a translator's skip-list), input registration
leaves the name-to-descriptor table unchanged at that name and adds no
feature entry carrying that name to the in-progress model (and the input
feature list is untouched altogether), even when the name appears in the
graph's declared input list. -/
theorem input_registration_skips_initializers (g : GraphViewer) (st : ModelBuilder)
    (key : String) (hkey : key ∈ g.initializerNames) :
    lookupInfo ((registerModelInputs g st).1).input_output_info key =
      lookupInfo st.input_output_info key ∧
    featuresNamed ((registerModelInputs g st).1).coreml_model.description.output key =
      featuresNamed st.coreml_model.description.output key ∧
    ((registerModelInputs g st).1).coreml_model.description.input =
      st.coreml_model.description.input := by
  obtain ⟨h1, h2⟩ :=
    registerModelInputsGo_initializer_untouched g.initializerNames g.inputs key hkey st
  exact ⟨h1, h2, registerModelInputsGo_inputFeats g.initializerNames g.inputs st⟩

/-- C8 (witness): the statement applied to `gC8`, whose declared input `w`
is an initializer. -/
theorem input_registration_skips_initializers_witness :
    "w" ∈ gC8.initializerNames ∧
    gC8.inputs.map NodeArg.name = ["w"] ∧
    (lookupInfo ((registerModelInputs gC8 initState).1).input_output_info "w" =
      lookupInfo initState.input_output_info "w" ∧
    featuresNamed
      ((registerModelInputs gC8 initState).1).coreml_model.description.output "w" =
      featuresNamed initState.coreml_model.description.output "w" ∧
    ((registerModelInputs gC8 initState).1).coreml_model.description.input =
      initState.coreml_model.description.input) :=
  ⟨by decide, rfl, input_registration_skips_initializers gC8 initState "w" (by decide)⟩

/-- C10: when input registration fails while validating the input tensor `t`
(after the inputs `pre` before it registered successfully), the whole compile
aborts with that error, no artifact is written, and the name-to-descriptor
table in the builder state at the moment of failure holds no entry for `t`
(given `t` had no entry beforehand): descriptors are recorded only after both
shape and type validation succeed. -/
theorem input_validation_failure_no_descriptor (bs : OpBuilders)
    (serOk : SpecModel → Bool) (g : GraphViewer) (path : String)
    (pre : List NodeArg) (t : NodeArg) (rest : List NodeArg)
    (s1 s2 : ModelBuilder) (e : String)
    (hsplit : g.inputs = pre ++ t :: rest)
    (hpre : registerModelInputsGo g.initializerNames
      (preprocessInitializersGo bs initState g.nodes) pre = (s1, none))
    (hfail : registerModelInput g.initializerNames s1 t = (s2, some e))
    (hfresh : lookupInfo s1.input_output_info t.name = none) :
    compile bs serOk g path = (Except.error e, none) ∧
    lookupInfo s2.input_output_info t.name = none := by
  have hgo : registerModelInputsGo g.initializerNames
      (preprocessInitializersGo bs initState g.nodes) g.inputs = (s2, some e) := by
    rw [hsplit, registerModelInputsGo_append]
    rw [hpre]
    dsimp only
    simp only [registerModelInputsGo]
    rw [hfail]
  constructor
  · exact compile_of_prepare_err bs serOk g path s2 e (prepare_err_of_inputs bs g s2 e hgo)
  · rw [registerModelInput_info_fail g.initializerNames s1 t s2 e hfail]
    exact hfresh

/-- C10 (witness): the statement applied to `gC10`, whose first input `t`
has no shape information. -/
theorem input_validation_failure_no_descriptor_witness :
    gC10.inputs = [] ++ { name := "t", shape := none, typeAsProto := floatType } ::
      [{ name := "a", shape := some { dim := [Dim.value 2] }, typeAsProto := floatType }] ∧
    (compile bs0 ser0 gC10 "p" =
      (Except.error "shape_proto cannot be null for input: t", none) ∧
    lookupInfo s2C10.input_output_info "t" = none) :=
  ⟨rfl, input_validation_failure_no_descriptor bs0 ser0 gC10 "p"
    [] { name := "t", shape := none, typeAsProto := floatType }
    [{ name := "a", shape := some { dim := [Dim.value 2] }, typeAsProto := floatType }]
    initState s2C10 "shape_proto cannot be null for input: t" rfl rfl rfl rfl⟩

end CoremlEP
